import Mathlib

/-!
Verification of the Link-rs segment codec.

The repository contains two near-identical binary codecs for a transport
segment (`src/frame.rs` and `src/segment.rs`).  Both serialise a segment
`(type tag, u64 sequence number, payload bytes)` into a buffer laid out as
a 4-byte big-endian total length, a 1-byte type tag, an 8-byte big-endian
sequence number and the raw payload, and parse such buffers back with
exhaustive validation.

Bytes are modelled as natural numbers; buffers as `List Nat`.  The
big-endian writers of the `bytes` crate (`put_u32`, `put_u64`) are
modelled by `beBytes`, the big-endian readers (`get_u32`, `get_u8`,
`get_u64`) by `readBE`, which advances the slice like the `Buf` trait
does.  Rust slice indexing panics when out of bounds; decoding therefore
lands in a `DecodeResult` type with an explicit `crash` constructor for
those paths, and crash-freedom is proved separately.
-/

namespace LinkRs

/-- Maximum value of a `u32` (`u32::MAX`). -/
def U32_MAX : Nat := 4294967295

/-- Big-endian byte encoding of `n` on `w` bytes, most significant byte
first; models `put_u32` / `put_u64` of the `bytes` crate (which truncate
to the written width). -/
def beBytes : Nat → Nat → List Nat
  | 0, _ => []
  | w + 1, n => (n / 2 ^ (8 * w)) % 256 :: beBytes w n

/-- Big-endian value of a byte list, most significant byte first. -/
def beVal : List Nat → Nat
  | [] => 0
  | b :: l => b * 2 ^ (8 * l.length) + beVal l

/-- Reading `w` bytes big-endian from the front of a slice, advancing the
slice; models `get_u32` / `get_u8` / `get_u64` of the `bytes::Buf` trait,
which panic (here: `none`) when fewer than `w` bytes remain. -/
def readBE (w : Nat) (l : List Nat) : Option (Nat × List Nat) :=
  if w ≤ l.length then some (beVal (l.take w), l.drop w) else none

namespace Frame

/-- Error taxonomy of `src/frame.rs` (`FrameError`). -/
inductive FrameError where
  | TooShort
  | InvalidTotalLen (declared : Nat) (actual : Nat)
  | UnknownFrameType (t : Nat)
  | TotalLenOverflow (len : Nat)
  deriving DecidableEq

/-- Frame type tags of `src/frame.rs` (`FrameType`), with discriminants
Data = 0, Ack = 1, Syn = 2. -/
inductive FrameType where
  | Data
  | Ack
  | Syn
  deriving DecidableEq

/-- The discriminant written on the wire (`self.frame_type as u8`). -/
def FrameType.toByte : FrameType → Nat
  | .Data => 0
  | .Ack => 1
  | .Syn => 2

/-- The segment structure of `src/frame.rs`: a frame type, a `u64`
sequence number and a payload of bytes. -/
structure Segment where
  frame_type : FrameType
  seq : Nat
  data : List Nat
  deriving DecidableEq

/-- Fixed header length: 4 (total_len) + 1 (type) + 8 (seq) = 13 bytes. -/
def Segment.FIXED_HEADER_LEN : Nat := 4 + 1 + 8

/-- `Segment::encode` of `src/frame.rs`: computes `total_len`, fails with
`TotalLenOverflow` when it does not fit in a `u32` (`u32::try_from`),
otherwise writes the big-endian total length, the type byte, the
big-endian sequence number and the payload. -/
def Segment.encode (s : Segment) : Except FrameError (List Nat) :=
  let data_len := s.data.length
  let total_len := Segment.FIXED_HEADER_LEN + data_len
  if U32_MAX < total_len then
    .error (.TotalLenOverflow total_len)
  else
    .ok (beBytes 4 total_len ++ s.frame_type.toByte :: (beBytes 8 s.seq ++ s.data))

/-- Mapping of the wire tag byte back to a frame type; `none` models the
fall-through arm of the `match` in `decode` that returns
`UnknownFrameType`. -/
def byteToType : Nat → Option FrameType
  | 0 => some .Data
  | 1 => some .Ack
  | 2 => some .Syn
  | _ => none

/-- Result of decoding: a segment, a typed error, or a `crash` marking a
Rust panic (an out-of-bounds slice access). -/
inductive DecodeResult where
  | ok (s : Segment)
  | err (e : FrameError)
  | crash
  deriving DecidableEq

/-- `Segment::decode` of `src/frame.rs`: checks the buffer holds a length
field, reads the declared total length, validates it against the actual
buffer length and the fixed header size, reads and validates the type
byte, reads the sequence number, and copies `total_len - 13` payload
bytes. -/
def Segment.decode (buf : List Nat) : DecodeResult :=
  if buf.length < 4 then .err .TooShort
  else
    match readBE 4 buf with
    | none => .crash
    | some (total_len_declared, s1) =>
      if total_len_declared > buf.length ∨ total_len_declared < Segment.FIXED_HEADER_LEN then
        .err (.InvalidTotalLen total_len_declared buf.length)
      else
        match readBE 1 s1 with
        | none => .crash
        | some (t, s2) =>
          match byteToType t with
          | none => .err (.UnknownFrameType t)
          | some frame_type =>
            match readBE 8 s2 with
            | none => .crash
            | some (seq, s3) =>
              let data_len := total_len_declared - Segment.FIXED_HEADER_LEN
              if s3.length < data_len then .crash
              else .ok { frame_type := frame_type, seq := seq, data := s3.take data_len }

end Frame

namespace Seg

/-- Error taxonomy of `src/segment.rs` (`SegmentError`). -/
inductive SegmentError where
  | TooShort
  | InvalidTotalLen (declared : Nat) (actual : Nat)
  | UnknownFrameType (t : Nat)
  | TotalLenOverflow (len : Nat)
  deriving DecidableEq

/-- Segment type tags of `src/segment.rs` (`SegmentType`), with
discriminants Data = 0, Ack = 1, Syn = 2. -/
inductive SegmentType where
  | Data
  | Ack
  | Syn
  deriving DecidableEq

/-- The discriminant written on the wire (`self.segment_type as u8`). -/
def SegmentType.toByte : SegmentType → Nat
  | .Data => 0
  | .Ack => 1
  | .Syn => 2

/-- The segment structure of `src/segment.rs`: a segment type, a `u64`
sequence number and a payload of bytes. -/
structure Segment where
  segment_type : SegmentType
  seq : Nat
  data : List Nat
  deriving DecidableEq

/-- Fixed header length: 4 (total_len) + 1 (type) + 8 (seq) = 13 bytes. -/
def Segment.FIXED_HEADER_LEN : Nat := 4 + 1 + 8

/-- `Segment::encode` of `src/segment.rs`; same shape as the `frame.rs`
encoder. -/
def Segment.encode (s : Segment) : Except SegmentError (List Nat) :=
  let data_len := s.data.length
  let total_len := Segment.FIXED_HEADER_LEN + data_len
  if U32_MAX < total_len then
    .error (.TotalLenOverflow total_len)
  else
    .ok (beBytes 4 total_len ++ s.segment_type.toByte :: (beBytes 8 s.seq ++ s.data))

/-- Mapping of the wire tag byte back to a segment type; `none` models
the fall-through arm of the `match` in `decode` that returns
`UnknownFrameType`. -/
def byteToType : Nat → Option SegmentType
  | 0 => some .Data
  | 1 => some .Ack
  | 2 => some .Syn
  | _ => none

/-- Result of decoding for `src/segment.rs`; `crash` marks a Rust panic
(an out-of-bounds slice access). -/
inductive DecodeResult where
  | ok (s : Segment)
  | err (e : SegmentError)
  | crash
  deriving DecidableEq

/-- `Segment::decode` of `src/segment.rs`; same shape as the `frame.rs`
decoder. -/
def Segment.decode (buf : List Nat) : DecodeResult :=
  if buf.length < 4 then .err .TooShort
  else
    match readBE 4 buf with
    | none => .crash
    | some (total_len_declared, s1) =>
      if total_len_declared > buf.length ∨ total_len_declared < Segment.FIXED_HEADER_LEN then
        .err (.InvalidTotalLen total_len_declared buf.length)
      else
        match readBE 1 s1 with
        | none => .crash
        | some (t, s2) =>
          match byteToType t with
          | none => .err (.UnknownFrameType t)
          | some segment_type =>
            match readBE 8 s2 with
            | none => .crash
            | some (seq, s3) =>
              let data_len := total_len_declared - Segment.FIXED_HEADER_LEN
              if s3.length < data_len then .crash
              else .ok { segment_type := segment_type, seq := seq, data := s3.take data_len }

end Seg

/-- Renaming of the tag enumeration between the two files
(`FrameType` of `frame.rs` to `SegmentType` of `segment.rs`). -/
def typeConv : Frame.FrameType → Seg.SegmentType
  | .Data => .Data
  | .Ack => .Ack
  | .Syn => .Syn

/-- Renaming of the segment structure between the two files. -/
def segConv (s : Frame.Segment) : Seg.Segment :=
  ⟨typeConv s.frame_type, s.seq, s.data⟩

/-- Renaming of the error taxonomy between the two files
(`FrameError` of `frame.rs` to `SegmentError` of `segment.rs`),
variant by variant with the carried values unchanged. -/
def errConv : Frame.FrameError → Seg.SegmentError
  | .TooShort => .TooShort
  | .InvalidTotalLen d a => .InvalidTotalLen d a
  | .UnknownFrameType t => .UnknownFrameType t
  | .TotalLenOverflow l => .TotalLenOverflow l

/-- Renaming of encode results between the two files. -/
def excConv : Except Frame.FrameError (List Nat) → Except Seg.SegmentError (List Nat)
  | .ok out => .ok out
  | .error e => .error (errConv e)

/-- Renaming of decode results between the two files. -/
def resConv : Frame.DecodeResult → Seg.DecodeResult
  | .ok s => .ok (segConv s)
  | .err e => .err (errConv e)
  | .crash => .crash

theorem beBytes_length (w n : Nat) : (beBytes w n).length = w := by
  induction w generalizing n with
  | zero => rfl
  | succ k ih => simp [beBytes, ih]

theorem beVal_beBytes_mod (w n : Nat) : beVal (beBytes w n) = n % 2 ^ (8 * w) := by
  induction w generalizing n with
  | zero => simp [beBytes, beVal, Nat.mod_one]
  | succ k ih =>
    have hpow : (2 : Nat) ^ (8 * (k + 1)) = 2 ^ (8 * k) * 2 ^ 8 := by
      rw [← pow_add]; ring_nf
    rw [beBytes, beVal, beBytes_length, ih, hpow, Nat.mod_mul]
    have h256 : (2 : Nat) ^ 8 = 256 := by norm_num
    rw [h256]
    ring

theorem beVal_beBytes {w n : Nat} (h : n < 2 ^ (8 * w)) : beVal (beBytes w n) = n := by
  rw [beVal_beBytes_mod, Nat.mod_eq_of_lt h]

theorem readBE_eq {w : Nat} {l : List Nat} (h : w ≤ l.length) :
    readBE w l = some (beVal (l.take w), l.drop w) := by
  simp [readBE, h]


theorem beVal_singleton (t : Nat) : beVal [t] = t := by
  simp [beVal]

theorem take_one_drop {n t : Nat} : ∀ {l : List Nat}, l[n]? = some t → (l.drop n).take 1 = [t] := by
  induction n with
  | zero =>
    intro l h
    cases l with
    | nil => simp at h
    | cons a l => simp at h; simp [h]
  | succ k ih =>
    intro l h
    cases l with
    | nil => simp at h
    | cons a l =>
      rw [List.getElem?_cons_succ] at h
      simpa using ih h

theorem Frame.byteToType_eq_none {t : Nat} (h0 : t ≠ 0) (h1 : t ≠ 1) (h2 : t ≠ 2) :
    Frame.byteToType t = none := by
  obtain ⟨k, rfl⟩ : ∃ k, t = k + 3 := ⟨t - 3, by omega⟩
  rfl

theorem Seg.byteToType_eq_none_seg {t : Nat} (h0 : t ≠ 0) (h1 : t ≠ 1) (h2 : t ≠ 2) :
    Seg.byteToType t = none := by
  obtain ⟨k, rfl⟩ : ∃ k, t = k + 3 := ⟨t - 3, by omega⟩
  rfl

theorem Frame.decode_of_valid (buf : List Nat) (h4 : 4 ≤ buf.length)
    (hlb : 13 ≤ beVal (buf.take 4)) (hub : beVal (buf.take 4) ≤ buf.length) :
    Frame.Segment.decode buf =
      match Frame.byteToType (beVal ((buf.drop 4).take 1)) with
      | some ft =>
          .ok ⟨ft, beVal ((buf.drop 5).take 8), (buf.drop 13).take (beVal (buf.take 4) - 13)⟩
      | none => .err (.UnknownFrameType (beVal ((buf.drop 4).take 1))) := by
  have h13 : 13 ≤ buf.length := le_trans hlb hub
  have h1 : readBE 4 buf = some (beVal (buf.take 4), buf.drop 4) := readBE_eq (by omega)
  have h2 : readBE 1 (buf.drop 4) = some (beVal ((buf.drop 4).take 1), (buf.drop 4).drop 1) :=
    readBE_eq (by rw [List.length_drop]; omega)
  have h3 : (buf.drop 4).drop 1 = buf.drop 5 := by rw [List.drop_drop]
  have h8 : readBE 8 (buf.drop 5) = some (beVal ((buf.drop 5).take 8), buf.drop 13) := by
    rw [readBE_eq (by rw [List.length_drop]; omega), List.drop_drop]
  unfold Frame.Segment.decode
  rw [if_neg (by omega), h1]
  dsimp only
  rw [if_neg (by unfold Frame.Segment.FIXED_HEADER_LEN; omega), h2, h3]
  dsimp only
  cases hb : Frame.byteToType (beVal ((buf.drop 4).take 1)) with
  | none => rfl
  | some ft =>
    dsimp only
    rw [h8]
    dsimp only
    rw [if_neg (by rw [List.length_drop]; unfold Frame.Segment.FIXED_HEADER_LEN; omega)]
    rfl

theorem Seg.decode_of_valid_seg (buf : List Nat) (h4 : 4 ≤ buf.length)
    (hlb : 13 ≤ beVal (buf.take 4)) (hub : beVal (buf.take 4) ≤ buf.length) :
    Seg.Segment.decode buf =
      match Seg.byteToType (beVal ((buf.drop 4).take 1)) with
      | some st =>
          .ok ⟨st, beVal ((buf.drop 5).take 8), (buf.drop 13).take (beVal (buf.take 4) - 13)⟩
      | none => .err (.UnknownFrameType (beVal ((buf.drop 4).take 1))) := by
  have h13 : 13 ≤ buf.length := le_trans hlb hub
  have h1 : readBE 4 buf = some (beVal (buf.take 4), buf.drop 4) := readBE_eq (by omega)
  have h2 : readBE 1 (buf.drop 4) = some (beVal ((buf.drop 4).take 1), (buf.drop 4).drop 1) :=
    readBE_eq (by rw [List.length_drop]; omega)
  have h3 : (buf.drop 4).drop 1 = buf.drop 5 := by rw [List.drop_drop]
  have h8 : readBE 8 (buf.drop 5) = some (beVal ((buf.drop 5).take 8), buf.drop 13) := by
    rw [readBE_eq (by rw [List.length_drop]; omega), List.drop_drop]
  unfold Seg.Segment.decode
  rw [if_neg (by omega), h1]
  dsimp only
  rw [if_neg (by unfold Seg.Segment.FIXED_HEADER_LEN; omega), h2, h3]
  dsimp only
  cases hb : Seg.byteToType (beVal ((buf.drop 4).take 1)) with
  | none => rfl
  | some st =>
    dsimp only
    rw [h8]
    dsimp only
    rw [if_neg (by rw [List.length_drop]; unfold Seg.Segment.FIXED_HEADER_LEN; omega)]
    rfl

theorem Frame.decode_short {buf : List Nat} (h : buf.length < 4) :
    Frame.Segment.decode buf = .err .TooShort := by
  unfold Frame.Segment.decode
  rw [if_pos h]

theorem Seg.decode_short_seg {buf : List Nat} (h : buf.length < 4) :
    Seg.Segment.decode buf = .err .TooShort := by
  unfold Seg.Segment.decode
  rw [if_pos h]

theorem Frame.decode_badlen {buf : List Nat} (h4 : 4 ≤ buf.length)
    (hval : beVal (buf.take 4) > buf.length ∨ beVal (buf.take 4) < 13) :
    Frame.Segment.decode buf = .err (.InvalidTotalLen (beVal (buf.take 4)) buf.length) := by
  unfold Frame.Segment.decode
  rw [if_neg (by omega), readBE_eq h4]
  dsimp only
  rw [if_pos (by unfold Frame.Segment.FIXED_HEADER_LEN; omega)]

theorem Seg.decode_badlen_seg {buf : List Nat} (h4 : 4 ≤ buf.length)
    (hval : beVal (buf.take 4) > buf.length ∨ beVal (buf.take 4) < 13) :
    Seg.Segment.decode buf = .err (.InvalidTotalLen (beVal (buf.take 4)) buf.length) := by
  unfold Seg.Segment.decode
  rw [if_neg (by omega), readBE_eq h4]
  dsimp only
  rw [if_pos (by unfold Seg.Segment.FIXED_HEADER_LEN; omega)]

theorem Frame.decode_ok_bounds {buf : List Nat} {s : Frame.Segment}
    (h : Frame.Segment.decode buf = .ok s) :
    4 ≤ buf.length ∧ 13 ≤ beVal (buf.take 4) ∧ beVal (buf.take 4) ≤ buf.length := by
  by_cases h4 : buf.length < 4
  · rw [Frame.decode_short h4] at h
    cases h
  · push_neg at h4
    by_cases hval : beVal (buf.take 4) > buf.length ∨ beVal (buf.take 4) < 13
    · rw [Frame.decode_badlen h4 hval] at h
      cases h
    · push_neg at hval
      exact ⟨h4, hval.2, hval.1⟩

theorem byteToType_conv : ∀ t : Nat,
    Seg.byteToType t = (Frame.byteToType t).map typeConv := fun t =>
  match t with
  | 0 => rfl
  | 1 => rfl
  | 2 => rfl
  | _ + 3 => rfl

theorem wireLen (T tag q : Nat) (d : List Nat) :
    (beBytes 4 T ++ tag :: (beBytes 8 q ++ d)).length = 13 + d.length := by
  simp [List.length_append, beBytes_length]
  omega

theorem wireTake4 (T tag q : Nat) (d : List Nat) :
    (beBytes 4 T ++ tag :: (beBytes 8 q ++ d)).take 4 = beBytes 4 T :=
  List.take_left' (beBytes_length 4 T)

theorem wireDrop4 (T tag q : Nat) (d : List Nat) :
    (beBytes 4 T ++ tag :: (beBytes 8 q ++ d)).drop 4 = tag :: (beBytes 8 q ++ d) :=
  List.drop_left' (beBytes_length 4 T)

theorem wireTag (T tag q : Nat) (d : List Nat) :
    ((beBytes 4 T ++ tag :: (beBytes 8 q ++ d)).drop 4).take 1 = [tag] := by
  rw [wireDrop4]
  rfl

theorem wireDrop5 (T tag q : Nat) (d : List Nat) :
    (beBytes 4 T ++ tag :: (beBytes 8 q ++ d)).drop 5 = beBytes 8 q ++ d := by
  have h5 : (5 : Nat) = 4 + 1 := rfl
  rw [h5, ← List.drop_drop, wireDrop4]
  rfl

theorem wireSeq (T tag q : Nat) (d : List Nat) :
    ((beBytes 4 T ++ tag :: (beBytes 8 q ++ d)).drop 5).take 8 = beBytes 8 q := by
  rw [wireDrop5]
  exact List.take_left' (beBytes_length 8 q)

theorem wireDrop13 (T tag q : Nat) (d : List Nat) :
    (beBytes 4 T ++ tag :: (beBytes 8 q ++ d)).drop 13 = d := by
  have h13 : (13 : Nat) = 5 + 8 := rfl
  rw [h13, ← List.drop_drop, wireDrop5]
  exact List.drop_left' (beBytes_length 8 q)

theorem Frame.encode_eq_ok {s : Frame.Segment} (h : 13 + s.data.length ≤ U32_MAX) :
    Frame.Segment.encode s =
      .ok (beBytes 4 (13 + s.data.length) ++
        s.frame_type.toByte :: (beBytes 8 s.seq ++ s.data)) := by
  unfold Frame.Segment.encode Frame.Segment.FIXED_HEADER_LEN
  dsimp only
  rw [if_neg (by omega)]

theorem Frame.encode_eq_error {s : Frame.Segment} (h : U32_MAX < 13 + s.data.length) :
    Frame.Segment.encode s = .error (.TotalLenOverflow (13 + s.data.length)) := by
  unfold Frame.Segment.encode Frame.Segment.FIXED_HEADER_LEN
  dsimp only
  rw [if_pos (by omega)]

/-- C7: `decode` on any buffer shorter than 4 bytes fails with the
`TooShort` error. -/
theorem C7_decode_too_short (buf : List Nat) (h : buf.length < 4) :
    Frame.Segment.decode buf = .err .TooShort :=
  Frame.decode_short h

theorem C7_witness : Frame.Segment.decode [1, 2, 3] = .err .TooShort :=
  C7_decode_too_short [1, 2, 3] (by decide)

/-- C5: on every buffer of length at least 4 whose first 4 bytes, read
big-endian, declare a total length greater than the actual buffer length
or less than 13, `decode` fails with `InvalidTotalLen` carrying exactly
the declared value and the actual buffer length. -/
theorem C5_decode_invalid_total_len (buf : List Nat) (h4 : 4 ≤ buf.length)
    (hval : beVal (buf.take 4) > buf.length ∨ beVal (buf.take 4) < 13) :
    Frame.Segment.decode buf = .err (.InvalidTotalLen (beVal (buf.take 4)) buf.length) :=
  Frame.decode_badlen h4 hval

theorem C5_witness :
    Frame.Segment.decode [0, 0, 0, 100, 0, 0, 0, 0, 0, 0, 0, 0, 0] =
      .err (.InvalidTotalLen 100 13) :=
  (C5_decode_invalid_total_len [0, 0, 0, 100, 0, 0, 0, 0, 0, 0, 0, 0, 0]
    (by decide) (by decide)).trans (by decide)

/-- C6: on every buffer that passes the length checks (length ≥ 4 and a
declared total length between 13 and the actual buffer length) whose byte
at offset 4 is not 0, 1 or 2, `decode` fails with `UnknownFrameType`
carrying that offending byte; it never defaults the tag. -/
theorem C6_decode_unknown_type (buf : List Nat) (t : Nat) (h4 : 4 ≤ buf.length)
    (hlb : 13 ≤ beVal (buf.take 4)) (hub : beVal (buf.take 4) ≤ buf.length)
    (ht : buf[4]? = some t) (h0 : t ≠ 0) (h1 : t ≠ 1) (h2 : t ≠ 2) :
    Frame.Segment.decode buf = .err (.UnknownFrameType t) := by
  have htake : (buf.drop 4).take 1 = [t] := take_one_drop ht
  rw [Frame.decode_of_valid buf h4 hlb hub, htake, beVal_singleton,
    Frame.byteToType_eq_none h0 h1 h2]

theorem C6_witness :
    Frame.Segment.decode [0, 0, 0, 13, 3, 0, 0, 0, 0, 0, 0, 0, 0] =
      .err (.UnknownFrameType 3) :=
  C6_decode_unknown_type [0, 0, 0, 13, 3, 0, 0, 0, 0, 0, 0, 0, 0] 3
    (by decide) (by decide) (by decide) (by decide)
    (by decide) (by decide) (by decide)

/-- C8: `decode` is total — on every input buffer it returns either a
validated segment or a typed error; no execution path panics (no
out-of-bounds slice access, modelled by the `crash` result, is
reachable). -/
theorem C8_decode_total (buf : List Nat) :
    (∃ s, Frame.Segment.decode buf = .ok s) ∨
      (∃ e, Frame.Segment.decode buf = .err e) := by
  by_cases h4 : buf.length < 4
  · exact .inr ⟨_, Frame.decode_short h4⟩
  · push_neg at h4
    by_cases hval : beVal (buf.take 4) > buf.length ∨ beVal (buf.take 4) < 13
    · exact .inr ⟨_, Frame.decode_badlen h4 hval⟩
    · push_neg at hval
      rw [Frame.decode_of_valid buf h4 hval.2 hval.1]
      cases hb : Frame.byteToType (beVal ((buf.drop 4).take 1)) with
      | none => exact .inr ⟨_, rfl⟩
      | some ft => exact .inl ⟨_, rfl⟩

/-- C10: trailing bytes are tolerated — whenever `decode` succeeds on a
buffer, it succeeds on that buffer extended by any suffix and returns the
same segment; only the first declared `total_len` bytes are used. -/
theorem C10_decode_ignores_trailing (buf extra : List Nat) (s : Frame.Segment)
    (h : Frame.Segment.decode buf = .ok s) :
    Frame.Segment.decode (buf ++ extra) = .ok s := by
  obtain ⟨h4, hlb, hub⟩ := Frame.decode_ok_bounds h
  have h13 : 13 ≤ buf.length := le_trans hlb hub
  have htk4 : (buf ++ extra).take 4 = buf.take 4 :=
    List.take_append_of_le_length (by omega)
  have ht1 : ((buf ++ extra).drop 4).take 1 = (buf.drop 4).take 1 := by
    rw [List.drop_append_of_le_length (by omega)]
    exact List.take_append_of_le_length (by rw [List.length_drop]; omega)
  have ht8 : ((buf ++ extra).drop 5).take 8 = (buf.drop 5).take 8 := by
    rw [List.drop_append_of_le_length (by omega)]
    exact List.take_append_of_le_length (by rw [List.length_drop]; omega)
  have htd : ((buf ++ extra).drop 13).take (beVal (buf.take 4) - 13) =
      (buf.drop 13).take (beVal (buf.take 4) - 13) := by
    rw [List.drop_append_of_le_length (by omega)]
    exact List.take_append_of_le_length (by rw [List.length_drop]; omega)
  rw [Frame.decode_of_valid (buf ++ extra)
    (by rw [List.length_append]; omega)
    (by rw [htk4]; exact hlb)
    (by rw [htk4, List.length_append]; omega)]
  rw [Frame.decode_of_valid buf h4 hlb hub] at h
  rw [htk4, ht1, ht8, htd]
  exact h

theorem C10_witness :
    Frame.Segment.decode
        ([0, 0, 0, 16, 2, 0, 0, 0, 0, 0, 0, 48, 57, 17, 34, 51] ++ [171, 205]) =
      .ok ⟨.Syn, 12345, [17, 34, 51]⟩ :=
  C10_decode_ignores_trailing [0, 0, 0, 16, 2, 0, 0, 0, 0, 0, 0, 48, 57, 17, 34, 51]
    [171, 205] ⟨.Syn, 12345, [17, 34, 51]⟩ (by rfl)

/-- C2: for every segment whose total length `13 + payload length` fits
in a `u32`, `encode` succeeds with a buffer of exactly that many bytes:
the 4-byte big-endian total length, the 1-byte type tag (Data = 0,
Ack = 1, Syn = 2), the 8-byte big-endian sequence number, then the raw
payload, with no padding. -/
theorem C2_encode_layout (s : Frame.Segment) (h : 13 + s.data.length ≤ U32_MAX) :
    Frame.FrameType.toByte .Data = 0 ∧ Frame.FrameType.toByte .Ack = 1 ∧
    Frame.FrameType.toByte .Syn = 2 ∧
    ∃ out, Frame.Segment.encode s = .ok out ∧
      out.length = 13 + s.data.length ∧
      out.take 4 = beBytes 4 (13 + s.data.length) ∧
      (out.drop 4).take 1 = [s.frame_type.toByte] ∧
      (out.drop 5).take 8 = beBytes 8 s.seq ∧
      out.drop 13 = s.data := by
  exact ⟨rfl, rfl, rfl, _, Frame.encode_eq_ok h,
    wireLen _ _ _ _, wireTake4 _ _ _ _, wireTag _ _ _ _,
    wireSeq _ _ _ _, wireDrop13 _ _ _ _⟩

theorem C2_witness :
    Frame.Segment.encode ⟨.Syn, 12345, [17, 34, 51]⟩ =
      .ok [0, 0, 0, 16, 2, 0, 0, 0, 0, 0, 0, 48, 57, 17, 34, 51] ∧
    (Frame.FrameType.toByte .Data = 0 ∧ Frame.FrameType.toByte .Ack = 1 ∧
      Frame.FrameType.toByte .Syn = 2 ∧
      ∃ out, Frame.Segment.encode ⟨.Syn, 12345, [17, 34, 51]⟩ = .ok out ∧
        out.length = 13 + ([17, 34, 51] : List Nat).length ∧
        out.take 4 = beBytes 4 (13 + ([17, 34, 51] : List Nat).length) ∧
        (out.drop 4).take 1 = [Frame.FrameType.toByte .Syn] ∧
        (out.drop 5).take 8 = beBytes 8 12345 ∧
        out.drop 13 = [17, 34, 51]) :=
  ⟨by rfl, C2_encode_layout ⟨.Syn, 12345, [17, 34, 51]⟩ (by decide)⟩

/-- C3: whenever `encode` succeeds, the first 4 bytes of the returned
buffer, read as a big-endian unsigned 32-bit integer, equal the total
length of that buffer. -/
theorem C3_length_field (s : Frame.Segment) (out : List Nat)
    (h : Frame.Segment.encode s = .ok out) :
    beVal (out.take 4) = out.length := by
  by_cases hov : 13 + s.data.length ≤ U32_MAX
  · rw [Frame.encode_eq_ok hov] at h
    injection h with h
    subst h
    rw [wireTake4, wireLen]
    refine beVal_beBytes ?_
    have h32 : (2 : Nat) ^ (8 * 4) = 4294967296 := by norm_num
    unfold U32_MAX at hov
    omega
  · push_neg at hov
    rw [Frame.encode_eq_error hov] at h
    cases h

theorem C3_witness :
    beVal (List.take 4 [0, 0, 0, 16, 2, 0, 0, 0, 0, 0, 0, 48, 57, 17, 34, 51]) =
      List.length [0, 0, 0, 16, 2, 0, 0, 0, 0, 0, 0, 48, 57, 17, 34, 51] :=
  C3_length_field ⟨.Syn, 12345, [17, 34, 51]⟩
    [0, 0, 0, 16, 2, 0, 0, 0, 0, 0, 0, 48, 57, 17, 34, 51] (by rfl)

/-- C4: `encode` fails with `TotalLenOverflow` carrying the computed
total length `13 + payload length` exactly when that length exceeds the
`u32` maximum, and succeeds with a buffer otherwise; the carried length
is never wrapped, truncated or capped. -/
theorem C4_encode_overflow_iff (s : Frame.Segment) :
    (Frame.Segment.encode s = .error (.TotalLenOverflow (13 + s.data.length)) ↔
      U32_MAX < 13 + s.data.length) ∧
    (13 + s.data.length ≤ U32_MAX → ∃ out, Frame.Segment.encode s = .ok out) := by
  refine ⟨⟨?_, Frame.encode_eq_error⟩, fun h => ⟨_, Frame.encode_eq_ok h⟩⟩
  intro h
  by_contra hle
  push_neg at hle
  rw [Frame.encode_eq_ok hle] at h
  cases h

theorem C4_witness :
    ∃ out, Frame.Segment.encode ⟨.Data, 0, [1, 2, 3]⟩ = .ok out :=
  (C4_encode_overflow_iff ⟨.Data, 0, [1, 2, 3]⟩).2 (by decide)

/-- C1: round trip — for every segment with a tag in {Data, Ack, Syn},
a 64-bit sequence number and a payload of length at most `2^32 - 14`,
`encode` succeeds and `decode` of the produced buffer succeeds with a
segment equal to the original in type, sequence and payload. -/
theorem C1_roundtrip (s : Frame.Segment) (hseq : s.seq < 2 ^ 64)
    (hlen : s.data.length ≤ 2 ^ 32 - 14) :
    ∃ out, Frame.Segment.encode s = .ok out ∧
      Frame.Segment.decode out = .ok ⟨s.frame_type, s.seq, s.data⟩ := by
  have hlen' : s.data.length ≤ 4294967282 := by
    have h32 : (2 : Nat) ^ 32 - 14 = 4294967282 := by norm_num
    omega
  have hov : 13 + s.data.length ≤ U32_MAX := by unfold U32_MAX; omega
  have hT32 : 13 + s.data.length < 2 ^ (8 * 4) := by
    have h32 : (2 : Nat) ^ (8 * 4) = 4294967296 := by norm_num
    omega
  have hq64 : s.seq < 2 ^ (8 * 8) := hseq
  refine ⟨_, Frame.encode_eq_ok hov, ?_⟩
  have hbe4 : beVal ((beBytes 4 (13 + s.data.length) ++
      s.frame_type.toByte :: (beBytes 8 s.seq ++ s.data)).take 4) = 13 + s.data.length := by
    rw [wireTake4]
    exact beVal_beBytes hT32
  rw [Frame.decode_of_valid _
    (by rw [wireLen]; omega) (by rw [hbe4]; omega) (by rw [hbe4, wireLen])]
  rw [wireTag, beVal_singleton, wireSeq, beVal_beBytes hq64, hbe4, wireDrop13]
  have hsub : 13 + s.data.length - 13 = s.data.length := by omega
  rw [hsub, List.take_length]
  cases hft : s.frame_type <;> rfl

theorem C1_witness :
    ∃ out, Frame.Segment.encode ⟨.Ack, 7, [9, 8, 7, 6]⟩ = .ok out ∧
      Frame.Segment.decode out = .ok ⟨.Ack, 7, [9, 8, 7, 6]⟩ :=
  C1_roundtrip ⟨.Ack, 7, [9, 8, 7, 6]⟩ (by decide) (by decide)

/-- C9: the codecs of `frame.rs` and `segment.rs` are equivalent up to
the renaming of their types — encoding a segment gives identical byte
buffers (or the corresponding error carrying the same value), and
decoding any buffer gives segments equal in tag, sequence and payload
(or the corresponding error carrying the same values). -/
theorem C9_implementations_equivalent :
    (∀ s : Frame.Segment, Seg.Segment.encode (segConv s) = excConv (Frame.Segment.encode s)) ∧
    (∀ buf : List Nat, Seg.Segment.decode buf = resConv (Frame.Segment.decode buf)) := by
  constructor
  · intro s
    have htb : (typeConv s.frame_type).toByte = s.frame_type.toByte := by
      cases s.frame_type <;> rfl
    unfold Frame.Segment.encode Seg.Segment.encode segConv
      Frame.Segment.FIXED_HEADER_LEN Seg.Segment.FIXED_HEADER_LEN
    dsimp only
    by_cases h : U32_MAX < 4 + 1 + 8 + s.data.length
    · rw [if_pos h, if_pos h]
      rfl
    · rw [if_neg h, if_neg h, htb]
      rfl
  · intro buf
    by_cases h4 : buf.length < 4
    · rw [Seg.decode_short_seg h4, Frame.decode_short h4]
      rfl
    · push_neg at h4
      by_cases hval : beVal (buf.take 4) > buf.length ∨ beVal (buf.take 4) < 13
      · rw [Seg.decode_badlen_seg h4 hval, Frame.decode_badlen h4 hval]
        rfl
      · push_neg at hval
        rw [Seg.decode_of_valid_seg buf h4 hval.2 hval.1,
          Frame.decode_of_valid buf h4 hval.2 hval.1, byteToType_conv]
        cases hb : Frame.byteToType (beVal ((buf.drop 4).take 1)) with
        | none => rfl
        | some ft => rfl

end LinkRs

example : (LinkRs.Frame.Segment.encode ⟨.Syn, 12345, [17, 34, 51]⟩) =
    .ok [0, 0, 0, 16, 2, 0, 0, 0, 0, 0, 0, 48, 57, 17, 34, 51] := by rfl

example : (LinkRs.Frame.Segment.decode [0, 0, 0, 16, 2, 0, 0, 0, 0, 0, 0, 48, 57, 17, 34, 51]) =
    .ok ⟨.Syn, 12345, [17, 34, 51]⟩ := by rfl

example : (LinkRs.Frame.Segment.decode [0, 0, 0, 13, 3, 0, 0, 0, 0, 0, 0, 0, 0]) =
    .err (.UnknownFrameType 3) := by rfl

example : (LinkRs.Frame.Segment.decode [0, 0, 0, 100, 0, 0, 0, 0, 0, 0, 0, 0, 0]) =
    .err (.InvalidTotalLen 100 13) := by rfl

example : (LinkRs.Frame.Segment.decode [1, 2, 3]) = .err .TooShort := by rfl
